import Mathlib

/-!
Verification of the `ito-but-free` (GroqBara) capture/trigger/injection
subsystem against its specification.

The frontend recording state machine lives in the React `App` component:
its `toggleRecording` handler, the `log` / `transcription` /
`recording_state` Tauri event listeners, and the initial
`recording_status` load.  Those handlers are embedded below as a step
function `appStep` over an explicit `AppState`, with the outcomes of the
fallible backend invocations (`stop_and_transcribe`, `start_recording`,
`write_clipboard`) supplied as parameters of the event that triggers
them.  The `RecordingOverlay` component is embedded as its initial state
and its pure label function.  The Rust backend's text injector and
Fn-key trigger listener are not among the provided source files; they
are modelled from the specification where a claim needs them, and each
such definition is marked `Modelled from the spec:` in its doc comment.
-/

/-- The three UI recording states, from
`type RecordingState = "idle" | "recording" | "processing"` in `App`. -/
inductive RecordingState
  | idle
  | recording
  | processing
deriving DecidableEq, Repr

/-- A log entry as assembled by the `log` listener: the backend payload
(`level`, `message`) extended with a locale time string. -/
structure LogEntry where
  level : String
  message : String
  timestamp : String
deriving DecidableEq, Repr

/-- The App component state touched by the embedded handlers:
`recordingState`, `transcription` and `logs`. -/
structure AppState where
  recordingState : RecordingState
  transcription : String
  logs : List LogEntry
deriving DecidableEq, Repr

/-- Initial `useState` values: `"idle"`, `""`, `[]`. -/
def initialApp : AppState :=
  { recordingState := .idle, transcription := "", logs := [] }

/-- Outcome of the awaited `invoke("stop_and_transcribe")` promise:
resolution with the transcribed text, or rejection with an error. -/
inductive StopOutcome
  | ok (text : String)
  | error (message : String)
deriving DecidableEq, Repr

/-- One externally triggered execution of an App handler, with the
outcomes of the backend invocations it performs baked in:
a click of the record button (`toggleRecording`), a `recording_state`
event, a `log` event, a `transcription` event (with the clipboard
write's outcome), the initial `recording_status` load, and the
LogsPanel clear button. -/
inductive AppEvent
  | userToggle (stopOutcome : StopOutcome) (startSucceeds : Bool)
  | recordingStateEvent (payload : RecordingState)
  | logEvent (entry : LogEntry)
  | transcriptionEvent (text : String) (clipboardSucceeds : Bool)
  | initialStatus (isRecording : Bool)
  | clearLogs
deriving DecidableEq, Repr

/-- Backend commands the handlers `invoke`. -/
inductive Invocation
  | startRecording
  | stopAndTranscribe
  | writeClipboard (text : String)
deriving DecidableEq, Repr

/-- Whether an event is a user start/stop command (a `toggleRecording`
run). -/
def AppEvent.isUserToggle : AppEvent → Bool
  | .userToggle _ _ => true
  | _ => false

/-- The App handlers as one step function.

* `userToggle`: `toggleRecording` — at `"recording"` it sets
  `"processing"`, awaits `stop_and_transcribe` (storing the text on
  success, logging on failure), then sets `"idle"`; at `"idle"` it
  awaits `start_recording` and sets `"recording"` on success (on
  rejection the `setRecordingState` line is never reached); at
  `"processing"` it does nothing.
* `recordingStateEvent`: the `recording_state` listener —
  `setRecordingState(event.payload)`.
* `logEvent`: the `log` listener —
  `setLogs(prev => [entry, ...prev].slice(0, 500))`.
* `transcriptionEvent`: the `transcription` listener —
  `setTranscription(text)`, then `write_clipboard` whose failure is
  caught and discarded.
* `initialStatus`: the `recording_status` load —
  `if (status) setRecordingState("recording")`.
* `clearLogs`: the LogsPanel clear callback — `setLogs([])`. -/
def appStep (s : AppState) : AppEvent → AppState
  | .userToggle stopOutcome startSucceeds =>
    match s.recordingState with
    | .recording =>
      match stopOutcome with
      | .ok text => { s with recordingState := .idle, transcription := text }
      | .error _ => { s with recordingState := .idle }
    | .idle =>
      if startSucceeds then { s with recordingState := .recording } else s
    | .processing => s
  | .recordingStateEvent payload => { s with recordingState := payload }
  | .logEvent entry => { s with logs := (entry :: s.logs).take 500 }
  | .transcriptionEvent text _ => { s with transcription := text }
  | .initialStatus isRecording =>
    if isRecording then { s with recordingState := .recording } else s
  | .clearLogs => { s with logs := [] }

/-- The successive values written into `recordingState` while a handler
runs (the `toggleRecording` stop branch writes `"processing"` and then
`"idle"` around the awaited call; the other cases write at most once). -/
def stateWrites (s : AppState) : AppEvent → List RecordingState
  | .userToggle _ startSucceeds =>
    match s.recordingState with
    | .recording => [.processing, .idle]
    | .idle => if startSucceeds then [.recording] else []
    | .processing => []
  | .recordingStateEvent payload => [payload]
  | .initialStatus isRecording => if isRecording then [.recording] else []
  | _ => []

/-- The backend commands a handler invokes. -/
def appInvokes (s : AppState) : AppEvent → List Invocation
  | .userToggle _ _ =>
    match s.recordingState with
    | .recording => [.stopAndTranscribe]
    | .idle => [.startRecording]
    | .processing => []
  | .transcriptionEvent text _ => [.writeClipboard text]
  | _ => []

/-- The console-error messages a handler emits
(`console.error("Transcription failed:", err)` in the stop branch; the
clipboard `catch {}` emits nothing). -/
def consoleLogsOut (s : AppState) : AppEvent → List String
  | .userToggle stopOutcome _ =>
    match s.recordingState, stopOutcome with
    | .recording, .error message => ["Transcription failed: " ++ message]
    | _, _ => []
  | _ => []

/-- Whether an event carries a failing backend outcome that the handler
actually encounters from state `s`. -/
def eventFails (s : AppState) : AppEvent → Bool
  | .userToggle stopOutcome startSucceeds =>
    match s.recordingState with
    | .recording => match stopOutcome with | .error _ => true | .ok _ => false
    | .idle => !startSucceeds
    | .processing => false
  | .transcriptionEvent _ clipboardSucceeds => !clipboardSucceeds
  | _ => false

/-- Run a sequence of events through `appStep`. -/
def runApp (s : AppState) : List AppEvent → AppState
  | [] => s
  | e :: es => runApp (appStep s e) es

/-- All `recordingState` writes along an event sequence, threading the
state. -/
def stateTraceAux (s : AppState) : List AppEvent → List RecordingState
  | [] => []
  | e :: es => stateWrites s e ++ stateTraceAux (appStep s e) es

/-- The sequence of values `recordingState` takes along an event
sequence, starting value included. -/
def stateTrace (s : AppState) (es : List AppEvent) : List RecordingState :=
  s.recordingState :: stateTraceAux s es

/-- One legal step of the recording cycle
Idle → Recording → Processing → Idle. -/
def cycleOk : RecordingState → RecordingState → Bool
  | .idle, .recording => true
  | .recording, .processing => true
  | .processing, .idle => true
  | _, _ => false

/-- The Workspace record button's `disabled` expression:
`recordingState === "processing"`. -/
def recordButtonDisabled (s : RecordingState) : Bool :=
  s == .processing

/-- The RecordingOverlay's initial `useState` value: `"recording"`. -/
def overlayInitialState : RecordingState := .recording

/-- The RecordingOverlay label:
`state === "recording" ? "Recording..." : "Transcribing..."`. -/
def overlayLabel (state : RecordingState) : String :=
  if state = .recording then "Recording..." else "Transcribing..."

/-- The overlay's `recording_state` listener replaces its state with the
event payload. -/
def overlayStep (_current : RecordingState) (payload : RecordingState) :
    RecordingState :=
  payload

/-- A synthesized keyboard event: a key down or key up tagged with its
chunk's sequence index and carrying the chunk's Unicode payload. -/
inductive KeyEvent
  | keyDown (idx : Nat) (payload : List Char)
  | keyUp (idx : Nat) (payload : List Char)
deriving DecidableEq, Repr

/-- Modelled from the spec: the Rust Text Injector backend
(`type_text` / `inject_text` in `src-tauri/src/platform/`) is not among
the provided source files.  Per §4.4 the text is partitioned into
chunks of a fixed maximum code-unit length; each chunk keeps the
characters in order and no character is dropped. -/
def chunkText (maxLen : Nat) : List Char → List (List Char)
  | [] => []
  | c :: cs =>
    (c :: cs.take (maxLen - 1)) :: chunkText maxLen (cs.drop (maxLen - 1))
termination_by l => l.length
decreasing_by
  simp only [List.length_drop, List.length_cons]
  omega

/-- Modelled from the spec: per §4.4 each chunk, in order, becomes a
key-down carrying its payload immediately followed by the matching
key-up; chunk indices count up from the given start. -/
def chunkEvents : Nat → List (List Char) → List KeyEvent
  | _, [] => []
  | i, chunk :: rest =>
    .keyDown i chunk :: .keyUp i chunk :: chunkEvents (i + 1) rest

/-- Modelled from the spec: `inject_text(text, delay)` chunks the text
and synthesizes the key events for every chunk starting at index 0 (the
inter-chunk delay does not affect which events are produced). -/
def inject_text (maxLen : Nat) (text : List Char) : List KeyEvent :=
  chunkEvents 0 (chunkText maxLen text)

/-- The chunk indices of the key-down events, in delivery order. -/
def downIdxs : List KeyEvent → List Nat
  | [] => []
  | .keyDown i _ :: es => i :: downIdxs es
  | .keyUp _ _ :: es => downIdxs es

/-- The chunk indices of the key-up events, in delivery order. -/
def upIdxs : List KeyEvent → List Nat
  | [] => []
  | .keyDown _ _ :: es => upIdxs es
  | .keyUp i _ :: es => i :: upIdxs es

/-- The payloads of the key-down events, in delivery order. -/
def downPayloads : List KeyEvent → List (List Char)
  | [] => []
  | .keyDown _ p :: es => p :: downPayloads es
  | .keyUp _ _ :: es => downPayloads es

/-- A raw OS key notification for the trigger key: a press (true
transition or OS auto-repeat) or a release. -/
inductive RawKey
  | press
  | release
deriving DecidableEq, Repr

/-- The events the trigger listener forwards to the Orchestrator. -/
inductive TriggerEvent
  | pressed
  | released
deriving DecidableEq, Repr

/-- Modelled from the spec: the OS trigger listener backend
(`start_fn_key_listener` in `src-tauri/src/platform/`) is not among the
provided source files.  Per §4.2, Hold mode: a press while the key is
not held emits `Pressed` once and marks it held; a press while held is
an OS auto-repeat and is suppressed; a release emits `Released` and
clears the held mark. -/
def holdStep : Bool → RawKey → Bool × List TriggerEvent
  | false, .press => (true, [.pressed])
  | true, .press => (true, [])
  | _, .release => (false, [.released])

/-- Run the Hold-mode listener over a raw key sequence, concatenating
the emitted trigger events. -/
def holdRun (held : Bool) : List RawKey → List TriggerEvent
  | [] => []
  | k :: ks => (holdStep held k).2 ++ holdRun (holdStep held k).1 ks

/-- Concatenating the chunks of a text gives back the text. -/
theorem chunkText_flatten (maxLen : Nat) (text : List Char) :
    (chunkText maxLen text).flatten = text := by
  induction text using chunkText.induct maxLen with
  | case1 => simp [chunkText]
  | case2 c cs ih =>
    simp [chunkText, ih, List.take_append_drop]

/-- The key-down indices of `chunkEvents i l` are `i, i+1, ...`, one per
chunk. -/
theorem downIdxs_chunkEvents (i : Nat) (l : List (List Char)) :
    downIdxs (chunkEvents i l) = List.range' i l.length := by
  induction l generalizing i with
  | nil => simp [chunkEvents, downIdxs]
  | cons ch rest ih => simp [chunkEvents, downIdxs, ih, List.range'_succ]

/-- The key-up indices of `chunkEvents i l` are `i, i+1, ...`, one per
chunk. -/
theorem upIdxs_chunkEvents (i : Nat) (l : List (List Char)) :
    upIdxs (chunkEvents i l) = List.range' i l.length := by
  induction l generalizing i with
  | nil => simp [chunkEvents, upIdxs]
  | cons ch rest ih => simp [chunkEvents, upIdxs, ih, List.range'_succ]

/-- The key-down payloads of `chunkEvents i l` are exactly the chunks,
in order. -/
theorem downPayloads_chunkEvents (i : Nat) (l : List (List Char)) :
    downPayloads (chunkEvents i l) = l := by
  induction l generalizing i with
  | nil => simp [chunkEvents, downPayloads]
  | cons ch rest ih => simp [chunkEvents, downPayloads, ih]

/-- After a press, a run of auto-repeat presses followed by the release
emits exactly one `Released`. -/
theorem holdRun_held_repeats (repeats : List RawKey)
    (h : ∀ r ∈ repeats, r = RawKey.press) :
    holdRun true (repeats ++ [RawKey.release]) = [TriggerEvent.released] := by
  induction repeats with
  | nil => simp [holdRun, holdStep]
  | cons r rs ih =>
    have hr : r = RawKey.press := h r (by simp)
    subst hr
    simpa [holdRun, holdStep] using ih fun r hr => h r (by simp [hr])

/-- C2: for every text and chunk bound, `inject_text` produces exactly
one key-down/key-up pair per chunk index, the indices are exactly
`0, 1, ..., n-1` in increasing order (no chunk skipped or duplicated,
repeated content included), and the concatenation of the delivered
key-down payloads equals the original text. -/
theorem c2_inject_text_exactly_once (maxLen : Nat) (text : List Char) :
    downIdxs (inject_text maxLen text) =
      List.range (chunkText maxLen text).length
    ∧ upIdxs (inject_text maxLen text) =
      List.range (chunkText maxLen text).length
    ∧ (downPayloads (inject_text maxLen text)).flatten = text := by
  refine ⟨?_, ?_, ?_⟩ <;>
    simp [inject_text, downIdxs_chunkEvents, upIdxs_chunkEvents,
      downPayloads_chunkEvents, List.range_eq_range', chunkText_flatten]

/-- C7: in Hold mode, a press followed by any number of OS auto-repeat
press notifications and then the release emits exactly one `Pressed`
and one `Released`. -/
theorem c7_hold_mode_one_pair (repeats : List RawKey)
    (h : ∀ r ∈ repeats, r = RawKey.press) :
    holdRun false (RawKey.press :: repeats ++ [RawKey.release]) =
      [TriggerEvent.pressed, TriggerEvent.released] := by
  simpa [holdRun, holdStep] using holdRun_held_repeats repeats h

/-- Witness for C7 at two auto-repeat notifications. -/
theorem c7_hold_mode_one_pair_witness :
    (∀ r ∈ [RawKey.press, RawKey.press], r = RawKey.press)
    ∧ holdRun false
        (RawKey.press :: [RawKey.press, RawKey.press] ++ [RawKey.release]) =
      [TriggerEvent.pressed, TriggerEvent.released] :=
  ⟨by decide, c7_hold_mode_one_pair [RawKey.press, RawKey.press] (by decide)⟩

/-- C3: while the state is Processing, a user start/stop command is a
no-op: the state is unchanged, nothing is written to it, no backend
command is invoked, and the Workspace record button is disabled. -/
theorem c3_processing_ignores_commands (s : AppState)
    (h : s.recordingState = RecordingState.processing)
    (stopOutcome : StopOutcome) (startSucceeds : Bool) :
    appStep s (.userToggle stopOutcome startSucceeds) = s
    ∧ stateWrites s (.userToggle stopOutcome startSucceeds) = []
    ∧ appInvokes s (.userToggle stopOutcome startSucceeds) = []
    ∧ recordButtonDisabled s.recordingState = true := by
  refine ⟨?_, ?_, ?_, ?_⟩ <;>
    simp [appStep, stateWrites, appInvokes, recordButtonDisabled, h]

/-- Witness for C3 at a concrete Processing state. -/
theorem c3_processing_ignores_commands_witness :
    (AppState.recordingState ⟨.processing, "", []⟩ = RecordingState.processing)
    ∧ (appStep ⟨.processing, "", []⟩ (.userToggle (.ok "hi") true) =
          (⟨.processing, "", []⟩ : AppState)
       ∧ stateWrites ⟨.processing, "", []⟩ (.userToggle (.ok "hi") true) = []
       ∧ appInvokes ⟨.processing, "", []⟩ (.userToggle (.ok "hi") true) = []
       ∧ recordButtonDisabled
           (AppState.recordingState ⟨.processing, "", []⟩) = true) :=
  ⟨rfl, c3_processing_ignores_commands ⟨.processing, "", []⟩ rfl (.ok "hi") true⟩

/-- C4: a stop command from Recording always ends in Idle — in
particular when `stop_and_transcribe` rejects — and the state passes
through Processing on the way. -/
theorem c4_stop_chain_failure_returns_idle (s : AppState)
    (h : s.recordingState = RecordingState.recording)
    (stopOutcome : StopOutcome) (startSucceeds : Bool) :
    (appStep s (.userToggle stopOutcome startSucceeds)).recordingState =
      RecordingState.idle
    ∧ stateWrites s (.userToggle stopOutcome startSucceeds) =
      [RecordingState.processing, RecordingState.idle] := by
  cases stopOutcome <;> simp [appStep, stateWrites, h]

/-- Witness for C4 at a failing stop call. -/
theorem c4_stop_chain_failure_returns_idle_witness :
    (AppState.recordingState ⟨.recording, "", []⟩ = RecordingState.recording)
    ∧ ((appStep ⟨.recording, "", []⟩
          (.userToggle (.error "network") true)).recordingState =
          RecordingState.idle
       ∧ stateWrites ⟨.recording, "", []⟩ (.userToggle (.error "network") true) =
          [RecordingState.processing, RecordingState.idle]) :=
  ⟨rfl, c4_stop_chain_failure_returns_idle ⟨.recording, "", []⟩ rfl
    (.error "network") true⟩

/-- C9: a transcription event always displays the text; a clipboard
write is always invoked for it, and a clipboard failure changes nothing
about the resulting state. -/
theorem c9_transcription_displayed_clipboard_failure_ignored
    (s : AppState) (text : String) (clipboardSucceeds : Bool) :
    (appStep s (.transcriptionEvent text clipboardSucceeds)).transcription =
      text
    ∧ appStep s (.transcriptionEvent text false) =
      appStep s (.transcriptionEvent text true)
    ∧ appInvokes s (.transcriptionEvent text clipboardSucceeds) =
      [.writeClipboard text] :=
  ⟨rfl, rfl, rfl⟩

/-- C10: the overlay's state starts as `"recording"` before any
`recording_state` event arrives, and the label is `"Recording..."`
exactly for the recording state and `"Transcribing..."` for both
processing and idle. -/
theorem c10_overlay_initial_and_label :
    overlayInitialState = RecordingState.recording
    ∧ (∀ s, overlayLabel s = "Recording..." ↔ s = RecordingState.recording)
    ∧ overlayLabel RecordingState.processing = "Transcribing..."
    ∧ overlayLabel RecordingState.idle = "Transcribing..." := by
  refine ⟨rfl, ?_, rfl, rfl⟩
  intro s
  cases s <;> simp [overlayLabel]

/-- No handler grows the logs list beyond 500 entries. -/
theorem appStep_logs_length_le (s : AppState) (e : AppEvent)
    (h : s.logs.length ≤ 500) : (appStep s e).logs.length ≤ 500 := by
  cases e with
  | userToggle stopOutcome startSucceeds =>
    cases hs : s.recordingState <;> cases stopOutcome <;>
      simp [appStep, hs, h] <;> split <;> simp [h]
  | recordingStateEvent payload => simpa [appStep] using h
  | logEvent entry =>
    simp [appStep, List.length_take]
  | transcriptionEvent text clipboardSucceeds => simpa [appStep] using h
  | initialStatus isRecording =>
    simp only [appStep]
    split <;> simpa using h
  | clearLogs => simp [appStep]

/-- The logs bound is an invariant of every run. -/
theorem runApp_logs_length_le (es : List AppEvent) (s : AppState)
    (h : s.logs.length ≤ 500) : (runApp s es).logs.length ≤ 500 := by
  induction es generalizing s with
  | nil => exact h
  | cons e es ih => exact ih _ (appStep_logs_length_le s e h)

/-- C8: starting from the initial state, the retained logs never exceed
500 entries after any event sequence, and a `log` event prepends the
new entry to the front, keeping only the first 499 previous entries
behind it, so the list is newest-first and anything beyond position 500
is discarded. -/
theorem c8_logs_bounded_newest_first (es : List AppEvent) (s : AppState)
    (entry : LogEntry) (i : Nat) :
    (runApp initialApp es).logs.length ≤ 500
    ∧ (appStep s (.logEvent entry)).logs.head? = some entry
    ∧ (appStep s (.logEvent entry)).logs.length = min 500 (s.logs.length + 1)
    ∧ (appStep s (.logEvent entry)).logs = entry :: s.logs.take 499
    ∧ ((appStep s (.logEvent entry)).logs)[i + 1]? =
      if i + 1 < 500 then s.logs[i]? else none := by
  refine ⟨runApp_logs_length_le es initialApp (by simp [initialApp]),
    ?_, ?_, ?_, ?_⟩
  · show ((entry :: s.logs).take 500).head? = some entry
    rw [show (500 : Nat) = 499 + 1 from rfl, List.take_succ_cons]
    rfl
  · simp only [appStep, List.length_take, List.length_cons]
  · show (entry :: s.logs).take 500 = entry :: s.logs.take 499
    rw [show (500 : Nat) = 499 + 1 from rfl, List.take_succ_cons]
  · show ((entry :: s.logs).take 500)[i + 1]? = _
    rw [List.getElem?_take]
    split <;> simp

/-- C5 counterexample: it is false that every handler other than the
`toggleRecording` transition function leaves `recordingState` alone —
the `recording_state` listener overwrites it (here, from Idle to
Recording). -/
theorem c5_counterexample :
    ¬ (∀ (s : AppState) (e : AppEvent), AppEvent.isUserToggle e = false →
        (appStep s e).recordingState = s.recordingState) := by
  intro hall
  have h := hall initialApp (.recordingStateEvent .recording) rfl
  simp [appStep, initialApp] at h

/-- C5 amended: `recordingState` is written only by the App's own
handlers — `toggleRecording`, the `recording_state` listener and the
initial `recording_status` load; `log`, `transcription` and clear-logs
events never change it and write nothing to it. -/
theorem c5_only_app_handlers_write_state (s : AppState) (entry : LogEntry)
    (text : String) (clipboardSucceeds : Bool) :
    (appStep s (.logEvent entry)).recordingState = s.recordingState
    ∧ (appStep s
        (.transcriptionEvent text clipboardSucceeds)).recordingState =
      s.recordingState
    ∧ (appStep s .clearLogs).recordingState = s.recordingState
    ∧ stateWrites s (.logEvent entry) = []
    ∧ stateWrites s (.transcriptionEvent text clipboardSucceeds) = []
    ∧ stateWrites s .clearLogs = [] :=
  ⟨rfl, rfl, rfl, rfl, rfl, rfl⟩

/-- C6 counterexample: it is false that every failing backend outcome
produces a console log — a clipboard-write failure in the
`transcription` listener is caught by an empty `catch` and produces
nothing. -/
theorem c6_counterexample :
    ¬ (∀ (s : AppState) (e : AppEvent), eventFails s e = true →
        consoleLogsOut s e ≠ []) := by
  intro hall
  exact hall initialApp (.transcriptionEvent "hello" false) rfl rfl

/-- C6 amended: a `stop_and_transcribe` failure is logged to the
console and the state still returns to Idle, but a clipboard-write
failure in the `transcription` listener is a failure that is silently
discarded with no log. -/
theorem c6_stop_errors_logged_clipboard_swallowed (s : AppState)
    (h : s.recordingState = RecordingState.recording) (message : String)
    (startSucceeds : Bool) (text : String) :
    consoleLogsOut s (.userToggle (.error message) startSucceeds) =
      ["Transcription failed: " ++ message]
    ∧ (appStep s (.userToggle (.error message) startSucceeds)).recordingState =
      RecordingState.idle
    ∧ consoleLogsOut s (.transcriptionEvent text false) = []
    ∧ eventFails s (.transcriptionEvent text false) = true := by
  refine ⟨?_, ?_, rfl, rfl⟩ <;> simp [consoleLogsOut, appStep, h]

/-- Witness for the amended C6 at a concrete Recording state. -/
theorem c6_stop_errors_logged_clipboard_swallowed_witness :
    (AppState.recordingState ⟨.recording, "", []⟩ = RecordingState.recording)
    ∧ (consoleLogsOut ⟨.recording, "", []⟩ (.userToggle (.error "boom") true) =
          ["Transcription failed: " ++ "boom"]
       ∧ (appStep ⟨.recording, "", []⟩
            (.userToggle (.error "boom") true)).recordingState =
          RecordingState.idle
       ∧ consoleLogsOut ⟨.recording, "", []⟩ (.transcriptionEvent "hi" false) =
          []
       ∧ eventFails ⟨.recording, "", []⟩ (.transcriptionEvent "hi" false) =
          true) :=
  ⟨rfl, c6_stop_errors_logged_clipboard_swallowed ⟨.recording, "", []⟩ rfl
    "boom" true "hi"⟩

/-- Along any sequence of user commands, every consecutive pair of
recording-state values (writes included) follows the cycle
Idle → Recording → Processing → Idle. -/
theorem stateTrace_toggles_chain (es : List AppEvent)
    (h : ∀ e ∈ es, AppEvent.isUserToggle e = true) (s : AppState) :
    List.Chain' (fun a b => cycleOk a b = true)
      (s.recordingState :: stateTraceAux s es) := by
  induction es generalizing s with
  | nil => simp [stateTraceAux]
  | cons e es ih =>
    have htail : ∀ e ∈ es, AppEvent.isUserToggle e = true :=
      fun e he => h e (List.mem_cons_of_mem _ he)
    cases e with
    | userToggle stopOutcome startSucceeds =>
      cases hs : s.recordingState with
      | idle =>
        cases startSucceeds with
        | true =>
          simp only [stateTraceAux, stateWrites, appStep, hs, if_true,
            List.cons_append, List.nil_append]
          refine List.chain'_cons.mpr ⟨rfl, ?_⟩
          simpa using ih htail { s with recordingState := .recording }
        | false =>
          simp only [stateTraceAux, stateWrites, appStep, hs, if_false,
            List.nil_append]
          have h' := ih htail s
          rw [hs] at h'
          exact h'
      | recording =>
        cases stopOutcome with
        | ok text =>
          simp only [stateTraceAux, stateWrites, appStep, hs,
            List.cons_append, List.nil_append]
          refine List.chain'_cons.mpr ⟨rfl, List.chain'_cons.mpr ⟨rfl, ?_⟩⟩
          simpa using ih htail
            { s with recordingState := .idle, transcription := text }
        | error message =>
          simp only [stateTraceAux, stateWrites, appStep, hs,
            List.cons_append, List.nil_append]
          refine List.chain'_cons.mpr ⟨rfl, List.chain'_cons.mpr ⟨rfl, ?_⟩⟩
          simpa using ih htail { s with recordingState := .idle }
      | processing =>
        simp only [stateTraceAux, stateWrites, appStep, hs, List.nil_append]
        have h' := ih htail s
        rw [hs] at h'
        exact h'
    | recordingStateEvent payload => simp [AppEvent.isUserToggle] at h
    | logEvent entry => simp [AppEvent.isUserToggle] at h
    | transcriptionEvent text clipboardSucceeds =>
      simp [AppEvent.isUserToggle] at h
    | initialStatus isRecording => simp [AppEvent.isUserToggle] at h
    | clearLogs => simp [AppEvent.isUserToggle] at h

/-- C1 counterexample: over sequences of user commands and
`recording_state` events the cycle claim fails — a single
`recording_state` event carrying `"processing"` moves the state from
Idle directly to Processing. -/
theorem c1_counterexample :
    ¬ (∀ (es : List AppEvent),
        (∀ e ∈ es, AppEvent.isUserToggle e = true
          ∨ ∃ p, e = AppEvent.recordingStateEvent p) →
        List.Chain' (fun a b => cycleOk a b = true)
          (stateTrace initialApp es)) := by
  intro hall
  have h := hall [.recordingStateEvent .processing] ?_
  · simp [stateTrace, stateTraceAux, stateWrites, appStep, initialApp,
      cycleOk] at h
  · intro e he
    simp only [List.mem_singleton] at he
    subst he
    exact Or.inr ⟨_, rfl⟩

/-- C1 amended: for every sequence of user commands (the
`recording_state` listener excluded, since it overwrites the state with
the event payload verbatim), the recording-state value follows the
strict cycle Idle → Recording → Processing → Idle, no state skipped or
revisited mid-cycle. -/
theorem c1_user_commands_follow_cycle (es : List AppEvent)
    (h : ∀ e ∈ es, AppEvent.isUserToggle e = true) :
    List.Chain' (fun a b => cycleOk a b = true) (stateTrace initialApp es) :=
  stateTrace_toggles_chain es h initialApp

/-- Witness for the amended C1 on a full record-then-stop cycle. -/
theorem c1_user_commands_follow_cycle_witness :
    (∀ e ∈ [AppEvent.userToggle (.ok "hi") true,
            AppEvent.userToggle (.ok "bye") true],
      AppEvent.isUserToggle e = true)
    ∧ List.Chain' (fun a b => cycleOk a b = true)
        (stateTrace initialApp
          [AppEvent.userToggle (.ok "hi") true,
           AppEvent.userToggle (.ok "bye") true]) :=
  ⟨by decide, c1_user_commands_follow_cycle _ (by decide)⟩
